import Mathlib

/-!
Shallow embedding of the bookshelf service (`src/main.py`).

The service keeps its whole collection in one JSON file and exposes CRUD
handlers plus a Google-Books lookup.  We model:

* a stored record (a JSON object as held in `books.json`) as `BookRec`;
  the `is_read` key may be absent in data written by an earlier revision,
  and when present it may hold JSON `null` or a boolean, hence
  `Option (Option Bool)`;
* a request payload validated by the pydantic `Book` model as `Book`;
* the backing file as `FileState` (absent, undecodable, or holding a
  decoded list of records — (de)serialization itself is delegated by the
  code to the `json` library, so the file content is modelled at the level
  of the decoded value);
* the upstream Google-Books HTTP answer as `UpstreamResponse`;
* each handler as a pure function of its inputs and the file state,
  returning the response (`Except HTTPError _`), the new file state, and
  the trace of store operations it performed.
-/

namespace Bookshelf

/-- A book object as stored in `books.json`.  `description` is `none` when
the JSON value is `null` (or the key is missing); `is_read` is `none` when
the key is missing (earliest-revision data), `some v` when the key holds
`v` (`v = none` models JSON `null`, `v = some b` a boolean). -/
structure BookRec where
  title : String
  author : String
  isbn : String
  description : Option String
  is_read : Option (Option Bool)
deriving DecidableEq, Repr

/-- The pydantic request model `Book(title, author, isbn,
description: Optional[str] = None, is_read: Optional[bool] = False)`. -/
structure Book where
  title : String
  author : String
  isbn : String
  description : Option String
  is_read : Option Bool
deriving DecidableEq, Repr

/-- `Book.model_dump()`: the dict written to storage.  Every key of the
model is present in the dump, so the stored `is_read` is `some`. -/
def Book.model_dump (b : Book) : BookRec :=
  { title := b.title, author := b.author, isbn := b.isbn,
    description := b.description, is_read := some b.is_read }

/-- The state of the backing file `books.json`. -/
inductive FileState where
  /-- the file does not exist (`FileNotFoundError` on open) -/
  | absent
  /-- the file exists but `json.load` raises `JSONDecodeError` -/
  | malformed
  /-- the file decodes to this list of records -/
  | content (books : List BookRec)
deriving DecidableEq, Repr

/-- `load_books()`: returns the decoded list, or `[]` when the file is
missing or undecodable (the `except (FileNotFoundError, JSONDecodeError)`
branch). -/
def load_books : FileState → List BookRec
  | .absent => []
  | .malformed => []
  | .content books => books

/-- `save_books(books)`: full rewrite of the file with `json.dump`. -/
def save_books (books : List BookRec) : FileState :=
  .content books

/-- The `volumeInfo` object of an upstream item; each field is `none` when
the key is missing. -/
structure VolumeInfo where
  title : Option String
  authors : Option (List String)
  description : Option String
deriving DecidableEq, Repr

/-- One element of the upstream `items` array. -/
structure UpstreamItem where
  volumeInfo : VolumeInfo
deriving DecidableEq, Repr

/-- The upstream HTTP answer: a non-200 status, or a 200 whose JSON body
has an optional `items` array (`none` = no `items` key). -/
inductive UpstreamResponse where
  | err (status : Nat)
  | ok (items : Option (List UpstreamItem))
deriving DecidableEq, Repr

/-- An error escaping a handler: a deliberately raised
`HTTPException(status, detail)`, or an unhandled Python `KeyError`. -/
inductive HTTPError where
  | httpException (status : Nat) (detail : String)
  | keyError (key : String)
deriving DecidableEq, Repr

/-- `fetch_google_book(isbn)` as a function of the upstream response. -/
def fetch_google_book (isbn : String) (resp : UpstreamResponse) :
    Except HTTPError BookRec :=
  match resp with
  | .ok items =>
    match items with
    | some (item :: _) =>
      let volume_info := item.volumeInfo
      .ok { title := volume_info.title.getD "Unknown",
            author := String.intercalate ", " (volume_info.authors.getD ["Unknown"]),
            isbn := isbn,
            description := some (volume_info.description.getD "No description available"),
            is_read := some (some false) }
    | _ => .error (.httpException 404 "Book not found in external API")
  | .err status => .error (.httpException status "Failed to fetch book details")

instance {ε α : Type} [DecidableEq ε] [DecidableEq α] :
    DecidableEq (Except ε α) := fun x y =>
  match x, y with
  | .ok a, .ok b =>
    if h : a = b then .isTrue (by rw [h])
    else .isFalse (fun hh => h (by injection hh))
  | .error a, .error b =>
    if h : a = b then .isTrue (by rw [h])
    else .isFalse (fun hh => h (by injection hh))
  | .ok _, .error _ => .isFalse (fun hh => Except.noConfusion hh)
  | .error _, .ok _ => .isFalse (fun hh => Except.noConfusion hh)

/-- A store access performed by a handler, in order. -/
inductive StoreOp where
  | load
  | save
deriving DecidableEq, Repr

/-- Outcome of a handler that may touch the store: the HTTP-level result,
the file state afterwards, and the store operations performed. -/
structure StoreResult (α : Type) where
  result : Except HTTPError α
  state : FileState
  trace : List StoreOp
deriving DecidableEq, Repr

/-- `any(b["isbn"] == isbn for b in books)`. -/
def hasIsbn (books : List BookRec) (isbn : String) : Bool :=
  books.any (fun b => b.isbn == isbn)

/-- `GET /books/search`: pure pass-through to the lookup client. -/
def search_book (isbn : String) (resp : UpstreamResponse) :
    Except HTTPError BookRec :=
  fetch_google_book isbn resp

/-- `POST /books/search` (`search_and_add_book`): lookup first; on lookup
failure the exception propagates before the store is touched. -/
def search_and_add_book (isbn : String) (resp : UpstreamResponse)
    (fs : FileState) : StoreResult BookRec :=
  match fetch_google_book isbn resp with
  | .error e => ⟨.error e, fs, []⟩
  | .ok book =>
    let books := load_books fs
    if hasIsbn books isbn then
      ⟨.error (.httpException 400 "Book with this ISBN already exists"),
       fs, [.load]⟩
    else
      ⟨.ok book, save_books (books ++ [book]), [.load, .save]⟩

/-- `GET /books`. -/
def get_books (fs : FileState) : List BookRec :=
  load_books fs

/-- `GET /books/{isbn}`: first record with this isbn, else 404. -/
def get_book (isbn : String) (fs : FileState) : Except HTTPError BookRec :=
  match (load_books fs).find? (fun book => book.isbn == isbn) with
  | some book => .ok book
  | none => .error (.httpException 404 "Book not found")

/-- Boolean test that `needle` is a prefix of `hay` (character lists). -/
def prefixEq : List Char → List Char → Bool
  | [], _ => true
  | _ :: _, [] => false
  | a :: as, b :: bs => a == b && prefixEq as bs

/-- Boolean test that `needle` occurs contiguously in `hay`; the empty
needle always occurs, matching Python `in` on strings. -/
def substrOf (needle : List Char) : List Char → Bool
  | [] => needle.isEmpty
  | c :: rest => prefixEq needle (c :: rest) || substrOf needle rest

/-- Python `needle in hay` on strings. -/
def pyIn (needle hay : String) : Bool :=
  substrOf needle.data hay.data

/-- Python `s.lower()` (ASCII case folding, as exercised by the spec). -/
def pyLower (s : String) : String :=
  ⟨s.data.map Char.toLower⟩

/-- `GET /books/author/{author}`: case-insensitive substring filter on the
`author` field; 404 when the filtered list is empty. -/
def get_books_by_author (author : String) (fs : FileState) :
    Except HTTPError (List BookRec) :=
  let books := load_books fs
  let result := books.filter (fun book => pyIn (pyLower author) (pyLower book.author))
  if result.isEmpty then
    .error (.httpException 404 "No books found for the given author")
  else
    .ok result

/-- `GET /books/title/{title}`: case-insensitive substring filter on the
`title` field; 404 when the filtered list is empty. -/
def get_books_by_title (title : String) (fs : FileState) :
    Except HTTPError (List BookRec) :=
  let books := load_books fs
  let result := books.filter (fun book => pyIn (pyLower title) (pyLower book.title))
  if result.isEmpty then
    .error (.httpException 404 "No books found for the given title")
  else
    .ok result

/-- `POST /books` (`add_book`). -/
def add_book (book : Book) (fs : FileState) : StoreResult Book :=
  let books := load_books fs
  if hasIsbn books book.isbn then
    ⟨.error (.httpException 400 "Book with this ISBN already exists"),
     fs, [.load]⟩
  else
    ⟨.ok book, save_books (books ++ [book.model_dump]), [.load, .save]⟩

/-- The `for index, book in enumerate(books)` loop of `update_book`:
replaces the first record whose isbn matches; `none` when no record
matches. -/
def updateLoop (isbn : String) (newBook : BookRec) :
    List BookRec → Option (List BookRec)
  | [] => none
  | b :: rest =>
    if b.isbn == isbn then some (newBook :: rest)
    else (updateLoop isbn newBook rest).map (b :: ·)

/-- `PUT /books/{isbn}` (`update_book`). -/
def update_book (isbn : String) (updated_book : Book) (fs : FileState) :
    StoreResult Book :=
  let books := load_books fs
  match updateLoop isbn updated_book.model_dump books with
  | some books' => ⟨.ok updated_book, save_books books', [.load, .save]⟩
  | none => ⟨.error (.httpException 404 "Book not found"), fs, [.load]⟩

/-- The loop of `delete_book`.  The code removes the found record with
`books.remove(book)`, which deletes the first list element *equal* to it;
since the found record is the first one carrying its isbn, no earlier
element can be fully equal to it, so this is exactly removal of the first
record with a matching isbn. -/
def deleteLoop (isbn : String) : List BookRec → Option (List BookRec)
  | [] => none
  | b :: rest =>
    if b.isbn == isbn then some rest
    else (deleteLoop isbn rest).map (b :: ·)

/-- `DELETE /books/{isbn}` (`delete_book`). -/
def delete_book (isbn : String) (fs : FileState) : StoreResult String :=
  let books := load_books fs
  match deleteLoop isbn books with
  | some books' =>
    ⟨.ok "Book deleted successfully", save_books books', [.load, .save]⟩
  | none => ⟨.error (.httpException 404 "Book not found"), fs, [.load]⟩

/-- Python `not v` on the value stored under `is_read`:
`not None` is `True`, `not b` negates a boolean. -/
def pyNot : Option Bool → Bool
  | none => true
  | some b => !b

/-- The loop of `toggle_read_status`: on the first record with a matching
isbn it evaluates `not book["is_read"]` — a `KeyError` when the key is
absent — stores the flipped value and returns the updated record together
with the updated list. -/
def toggleLoop (isbn : String) :
    List BookRec → Except HTTPError (BookRec × List BookRec)
  | [] => .error (.httpException 404 "Book not found")
  | b :: rest =>
    if b.isbn == isbn then
      match b.is_read with
      | none => .error (.keyError "is_read")
      | some v =>
        let b' := { b with is_read := some (some (pyNot v)) }
        .ok (b', b' :: rest)
    else
      match toggleLoop isbn rest with
      | .ok (bk, rest') => .ok (bk, b :: rest')
      | .error e => .error e

/-- `PATCH /books/{isbn}/toggle-read` (`toggle_read_status`).  When the
loop raises (404 or `KeyError` — the read of `book["is_read"]` happens
before the assignment), nothing has been saved. -/
def toggle_read_status (isbn : String) (fs : FileState) :
    StoreResult BookRec :=
  let books := load_books fs
  match toggleLoop isbn books with
  | .ok (bk, books') => ⟨.ok bk, save_books books', [.load, .save]⟩
  | .error e => ⟨.error e, fs, [.load]⟩

/-- The §3 invariant: no two records share an isbn. -/
def distinctIsbns (books : List BookRec) : Prop :=
  (books.map BookRec.isbn).Nodup

instance (books : List BookRec) : Decidable (distinctIsbns books) :=
  inferInstanceAs (Decidable (List.Nodup _))

/-- Spec-side reading of the search predicate: the query occurs
case-insensitively inside the field. -/
def ciSubstring (q field : String) : Prop :=
  (pyLower q).data <:+: (pyLower field).data

/-! ### Helper lemmas about the embedded operations -/

theorem hasIsbn_iff (books : List BookRec) (isbn : String) :
    hasIsbn books isbn = true ↔ ∃ b ∈ books, b.isbn = isbn := by
  simp [hasIsbn, List.any_eq_true]

theorem hasIsbn_eq_false (books : List BookRec) (isbn : String) :
    hasIsbn books isbn = false ↔ ∀ b ∈ books, b.isbn ≠ isbn := by
  rw [← Bool.not_eq_true, hasIsbn_iff]
  push_neg
  rfl

theorem prefixEq_iff (n : List Char) : ∀ h : List Char,
    prefixEq n h = true ↔ n <+: h := by
  induction n with
  | nil => intro h; simp [prefixEq, List.nil_prefix]
  | cons a as ih =>
    intro h
    cases h with
    | nil => simp [prefixEq, List.prefix_nil]
    | cons b bs => simp [prefixEq, List.cons_prefix_cons, ih bs, beq_iff_eq]

theorem substrOf_iff (n : List Char) : ∀ h : List Char,
    substrOf n h = true ↔ n <:+: h := by
  intro h
  induction h with
  | nil => simp [substrOf, List.isEmpty_iff, List.infix_nil]
  | cons c rest ih =>
    simp [substrOf, List.infix_cons_iff, prefixEq_iff, ih]

instance (q field : String) : Decidable (ciSubstring q field) :=
  decidable_of_iff (substrOf (pyLower q).data (pyLower field).data = true)
    (substrOf_iff _ _)

theorem substrOf_nil (h : List Char) : substrOf [] h = true := by
  cases h <;> simp [substrOf, prefixEq]

theorem pyIn_eq_decide (q f : String) :
    pyIn (pyLower q) (pyLower f) = decide (ciSubstring q f) := by
  by_cases hsub : ciSubstring q f
  · have : substrOf (pyLower q).data (pyLower f).data = true :=
      (substrOf_iff _ _).mpr hsub
    simp [pyIn, this, hsub]
  · have : substrOf (pyLower q).data (pyLower f).data ≠ true :=
      fun hc => hsub ((substrOf_iff _ _).mp hc)
    simp [pyIn, Bool.eq_false_iff.mpr this, hsub]

theorem fetch_ok_isbn (isbn : String) (resp : UpstreamResponse)
    (bk : BookRec) (h : fetch_google_book isbn resp = .ok bk) :
    bk.isbn = isbn := by
  cases resp with
  | err status => simp [fetch_google_book] at h
  | ok items =>
    match items with
    | none => simp [fetch_google_book] at h
    | some [] => simp [fetch_google_book] at h
    | some (item :: rest) =>
      simp [fetch_google_book] at h
      rw [← h]

theorem distinct_append_single (books : List BookRec) (bk : BookRec)
    (hd : distinctIsbns books) (h : hasIsbn books bk.isbn = false) :
    distinctIsbns (books ++ [bk]) := by
  unfold distinctIsbns at *
  rw [List.map_append, List.nodup_append]
  refine ⟨hd, List.nodup_singleton _, ?_⟩
  intro a ha hmem
  simp at hmem
  subst hmem
  obtain ⟨b, hb, hba⟩ := List.mem_map.mp ha
  exact (hasIsbn_eq_false _ _).mp h b hb hba

theorem deleteLoop_sublist (isbn : String) : ∀ (l l' : List BookRec),
    deleteLoop isbn l = some l' → l'.Sublist l := by
  intro l
  induction l with
  | nil => intro l' h; simp [deleteLoop] at h
  | cons b rest ih =>
    intro l' h
    by_cases hb : (b.isbn == isbn) = true
    · simp [deleteLoop, hb] at h
      rw [← h]
      exact List.Sublist.cons b (List.Sublist.refl rest)
    · rw [Bool.not_eq_true] at hb
      simp [deleteLoop, hb] at h
      obtain ⟨rest', hrest, hl⟩ := h
      rw [← hl]
      exact List.Sublist.cons₂ b (ih rest' hrest)

theorem toggleLoop_map_isbn (isbn : String) :
    ∀ (l : List BookRec) (bk : BookRec) (l' : List BookRec),
    toggleLoop isbn l = .ok (bk, l') →
    l'.map BookRec.isbn = l.map BookRec.isbn := by
  intro l
  induction l with
  | nil => intro bk l' h; simp [toggleLoop] at h
  | cons b rest ih =>
    intro bk l' h
    by_cases hb : (b.isbn == isbn) = true
    · rw [toggleLoop, if_pos hb] at h
      match hread : b.is_read with
      | none => rw [hread] at h; exact absurd h (by simp)
      | some v =>
        rw [hread] at h
        simp at h
        obtain ⟨hbk, hl⟩ := h
        rw [← hl]
        simp
    · rw [Bool.not_eq_true] at hb
      rw [toggleLoop, if_neg (by simp [hb])] at h
      match hrec : toggleLoop isbn rest with
      | .error e => rw [hrec] at h; exact absurd h (by simp)
      | .ok (bk0, rest') =>
        rw [hrec] at h
        simp at h
        obtain ⟨hbk, hl⟩ := h
        rw [← hl]
        simp [ih bk0 rest' hrec]

theorem updateLoop_mem (isbn : String) (nb : BookRec) :
    ∀ (l l' : List BookRec), updateLoop isbn nb l = some l' →
    ∀ x ∈ l', x ∈ l ∨ x = nb := by
  intro l
  induction l with
  | nil => intro l' h; simp [updateLoop] at h
  | cons b rest ih =>
    intro l' h x hx
    by_cases hb : (b.isbn == isbn) = true
    · simp [updateLoop, hb] at h
      rw [← h] at hx
      rcases List.mem_cons.mp hx with hnb | hrest
      · right; exact hnb
      · left; exact List.mem_cons_of_mem b hrest
    · rw [Bool.not_eq_true] at hb
      simp [updateLoop, hb] at h
      obtain ⟨rest', hrest, hl⟩ := h
      rw [← hl] at hx
      rcases List.mem_cons.mp hx with hxb | hx'
      · left; rw [hxb]; exact List.mem_cons_self b rest
      · rcases ih rest' hrest x hx' with hmem | hnb
        · left; exact List.mem_cons_of_mem b hmem
        · right; exact hnb

theorem updateLoop_nodup (isbn : String) (nb : BookRec) :
    ∀ (l l' : List BookRec), updateLoop isbn nb l = some l' →
    (nb.isbn = isbn ∨ ∀ r ∈ l, r.isbn ≠ nb.isbn) →
    distinctIsbns l → distinctIsbns l' := by
  intro l
  induction l with
  | nil => intro l' h; simp [updateLoop] at h
  | cons b rest ih =>
    intro l' h hside hd
    unfold distinctIsbns at hd
    simp [List.nodup_cons] at hd
    obtain ⟨hbnotin, hdrest⟩ := hd
    by_cases hb : (b.isbn == isbn) = true
    · rw [beq_iff_eq] at hb
      simp [updateLoop, hb] at h
      rw [← h]
      unfold distinctIsbns
      simp [List.nodup_cons]
      refine ⟨?_, hdrest⟩
      intro r hr hcontra
      rcases hside with hnb | hall
      · rw [hnb, ← hb] at hcontra
        exact hbnotin r hr hcontra
      · exact hall r (List.mem_cons_of_mem b hr) hcontra
    · rw [Bool.not_eq_true, beq_eq_false_iff_ne] at hb
      simp [updateLoop, beq_eq_false_iff_ne.mpr hb] at h
      obtain ⟨rest', hrest, hl⟩ := h
      have hside' : nb.isbn = isbn ∨ ∀ r ∈ rest, r.isbn ≠ nb.isbn := by
        rcases hside with hnb | hall
        · left; exact hnb
        · right; intro r hr; exact hall r (List.mem_cons_of_mem b hr)
      have hdrest' : distinctIsbns rest' :=
        ih rest' hrest hside' hdrest
      rw [← hl]
      unfold distinctIsbns
      simp [List.nodup_cons]
      refine ⟨?_, hdrest'⟩
      intro r hr hcontra
      rcases updateLoop_mem isbn nb rest rest' hrest r hr with hmem | hnb
      · exact hbnotin r hmem hcontra
      · rw [hnb] at hcontra
        rcases hside with heq | hall
        · exact hb (hcontra.symm.trans heq)
        · exact hall b (List.mem_cons_self b rest) hcontra.symm

theorem toggleLoop_append (isbn : String) (l2 : List BookRec)
    (bk : BookRec) (v : Option Bool) :
    ∀ l1 : List BookRec, (∀ r ∈ l1, r.isbn ≠ isbn) → bk.isbn = isbn →
    bk.is_read = some v →
    toggleLoop isbn (l1 ++ bk :: l2) =
      .ok ({ bk with is_read := some (some (pyNot v)) },
           l1 ++ { bk with is_read := some (some (pyNot v)) } :: l2) := by
  intro l1
  induction l1 with
  | nil =>
    intro _ hmatch hread
    simp [toggleLoop, hmatch, hread]
  | cons a l1 ih =>
    intro hfirst hmatch hread
    have ha : a.isbn ≠ isbn := hfirst a (List.mem_cons_self a l1)
    have hrec := ih (fun r hr => hfirst r (List.mem_cons_of_mem a hr))
      hmatch hread
    simp [toggleLoop, beq_eq_false_iff_ne.mpr ha, hrec]

/-! ### Sample data used by witnesses and counterexamples -/

/-- A stored record as the current revision writes it. -/
def bkA : BookRec :=
  { title := "Dune", author := "Frank Herbert", isbn := "123",
    description := none, is_read := some (some false) }

/-- A second stored record with a different isbn. -/
def bkB : BookRec :=
  { title := "The Hobbit", author := "J. R. R. Tolkien", isbn := "456",
    description := none, is_read := some (some false) }

/-- A record written by the earliest revision: no `is_read` key. -/
def bkLegacy : BookRec :=
  { title := "Old Title", author := "Old Author", isbn := "777",
    description := none, is_read := none }

/-- A payload whose isbn collides with `bkB`. -/
def payloadB : Book :=
  { title := "New Title", author := "New Author", isbn := "456",
    description := none, is_read := some false }

/-- A payload with a fresh isbn. -/
def payloadC : Book :=
  { title := "Fresh", author := "Someone", isbn := "999",
    description := none, is_read := some false }

/-! ### Claim theorems -/

/-- C5: saving a collection and then loading returns the same records with
the same field values in the same order. -/
theorem C5_save_load_roundtrip (books : List BookRec) :
    load_books (save_books books) = books := rfl

/-- C9: on a loaded state containing a record that matches the requested
isbn but lacks the `is_read` key, toggle-read raises an unhandled
`KeyError` — neither a success nor the NotFound response — and saves
nothing. -/
theorem C9_toggle_missing_key_raises :
    (toggle_read_status "777" (.content [bkLegacy])).result =
      .error (.keyError "is_read") ∧
    (toggle_read_status "777" (.content [bkLegacy])).state =
      .content [bkLegacy] ∧
    (toggle_read_status "777" (.content [bkLegacy])).result ≠
      .error (.httpException 404 "Book not found") ∧
    ∀ bk, (toggle_read_status "777" (.content [bkLegacy])).result ≠
      .ok bk := by
  refine ⟨rfl, rfl, by decide, ?_⟩
  intro bk h
  rw [show (toggle_read_status "777" (.content [bkLegacy])).result =
      .error (.keyError "is_read") from rfl] at h
  exact Except.noConfusion h

/-- C2: if the lookup fails, search-and-add returns the same error, the
file state is unchanged and no store operation at all is performed; if the
lookup succeeds but the isbn is already stored, it returns the duplicate
error, the file state is unchanged, and the trace holds no save. -/
theorem C2_search_and_add_atomic (isbn : String) (resp : UpstreamResponse)
    (fs : FileState) :
    (∀ e, fetch_google_book isbn resp = .error e →
        search_and_add_book isbn resp fs = ⟨.error e, fs, []⟩) ∧
    (∀ bk, fetch_google_book isbn resp = .ok bk →
        (∃ b ∈ load_books fs, b.isbn = isbn) →
        search_and_add_book isbn resp fs =
          ⟨.error (.httpException 400 "Book with this ISBN already exists"),
           fs, [.load]⟩) := by
  constructor
  · intro e he
    simp [search_and_add_book, he]
  · intro bk hbk hdup
    simp [search_and_add_book, hbk, hasIsbn_iff, hdup,
      (hasIsbn_iff _ _).mpr hdup]

/-- Witness for C2: a 503 from upstream is echoed with an untouched store,
and a duplicate isbn leaves the file unchanged with only a load in the
trace. -/
theorem C2_search_and_add_atomic_witness :
    search_and_add_book "9" (.err 503) (.content [bkA]) =
      ⟨.error (.httpException 503 "Failed to fetch book details"),
       .content [bkA], []⟩ ∧
    search_and_add_book "123" (.ok (some [⟨⟨some "Dune", none, none⟩⟩]))
        (.content [bkA]) =
      ⟨.error (.httpException 400 "Book with this ISBN already exists"),
       .content [bkA], [.load]⟩ :=
  ⟨(C2_search_and_add_atomic "9" (.err 503) (.content [bkA])).1 _ rfl,
   (C2_search_and_add_atomic "123" (.ok (some [⟨⟨some "Dune", none, none⟩⟩]))
       (.content [bkA])).2 _ rfl ⟨bkA, by simp [load_books], rfl⟩⟩

/-- C3: manual add fails with the 400 duplicate error exactly when some
stored record carries the new isbn, in which case the file is untouched;
otherwise the record is appended at the end and saved. -/
theorem C3_add_book_duplicate_check (book : Book) (fs : FileState) :
    ((∃ b ∈ load_books fs, b.isbn = book.isbn) →
        add_book book fs =
          ⟨.error (.httpException 400 "Book with this ISBN already exists"),
           fs, [.load]⟩) ∧
    ((∀ b ∈ load_books fs, b.isbn ≠ book.isbn) →
        add_book book fs =
          ⟨.ok book,
           FileState.content (load_books fs ++ [book.model_dump]),
           [.load, .save]⟩) ∧
    ((add_book book fs).result =
        .error (.httpException 400 "Book with this ISBN already exists") ↔
      ∃ b ∈ load_books fs, b.isbn = book.isbn) := by
  refine ⟨?_, ?_, ?_⟩
  · intro h
    simp [add_book, (hasIsbn_iff _ _).mpr h]
  · intro h
    simp [add_book, (hasIsbn_eq_false _ _).mpr h, save_books]
  · by_cases hdup : hasIsbn (load_books fs) book.isbn = true
    · simp [add_book, hdup, (hasIsbn_iff _ _).mp hdup]
    · rw [Bool.not_eq_true] at hdup
      simpa [add_book, hdup] using (hasIsbn_eq_false _ _).mp hdup

/-- Witness for C3: adding a colliding payload over `bkB` fails and leaves
the file alone; adding a fresh payload appends it. -/
theorem C3_add_book_duplicate_check_witness :
    add_book payloadB (.content [bkB]) =
      ⟨.error (.httpException 400 "Book with this ISBN already exists"),
       .content [bkB], [.load]⟩ ∧
    add_book payloadC (.content [bkB]) =
      ⟨.ok payloadC,
       FileState.content (load_books (.content [bkB]) ++ [payloadC.model_dump]),
       [.load, .save]⟩ :=
  ⟨(C3_add_book_duplicate_check payloadB (.content [bkB])).1
      ⟨bkB, by simp [load_books], rfl⟩,
   (C3_add_book_duplicate_check payloadC (.content [bkB])).2.1 (by decide)⟩

/-- C6: a missing or undecodable backing file loads as the empty
collection, and every endpoint then answers exactly as it would over a
file holding the empty collection — the recovery is invisible to
callers. -/
theorem C6_malformed_file_recovery :
    load_books .absent = [] ∧ load_books .malformed = [] ∧
    ∀ fs : FileState, fs = FileState.absent ∨ fs = FileState.malformed →
      (∀ i r, (search_and_add_book i r fs).result =
          (search_and_add_book i r (FileState.content [])).result) ∧
      get_books fs = get_books (FileState.content []) ∧
      (∀ i, get_book i fs = get_book i (FileState.content [])) ∧
      (∀ a, get_books_by_author a fs =
          get_books_by_author a (FileState.content [])) ∧
      (∀ t, get_books_by_title t fs =
          get_books_by_title t (FileState.content [])) ∧
      (∀ b, (add_book b fs).result =
          (add_book b (FileState.content [])).result) ∧
      (∀ i b, (update_book i b fs).result =
          (update_book i b (FileState.content [])).result) ∧
      (∀ i, (delete_book i fs).result =
          (delete_book i (FileState.content [])).result) ∧
      (∀ i, (toggle_read_status i fs).result =
          (toggle_read_status i (FileState.content [])).result) := by
  refine ⟨rfl, rfl, ?_⟩
  intro fs hfs
  rcases hfs with rfl | rfl <;>
    refine ⟨?_, rfl, fun i => rfl, fun a => rfl, fun t => rfl,
      fun b => rfl, fun i b => rfl, fun i => rfl, fun i => rfl⟩ <;>
    · intro i r
      rcases hf : fetch_google_book i r with e | bk <;>
        simp [search_and_add_book, hf, load_books, hasIsbn]

/-- Witness for C6: the lookup-and-persist endpoint answers identically on
a missing file and on a file holding the empty collection. -/
theorem C6_malformed_file_recovery_witness :
    (search_and_add_book "1" (.err 500) FileState.absent).result =
      (search_and_add_book "1" (.err 500) (FileState.content [])).result :=
  ((C6_malformed_file_recovery.2.2 FileState.absent (Or.inl rfl)).1
    "1" (.err 500))

/-- Counterexample for C4: an upstream item whose `authors` array is
present but empty yields `author = ""` — the join of an empty list — not
`"Unknown"` as the claim states. -/
theorem C4_counterexample_empty_authors :
    fetch_google_book "999" (.ok (some [⟨⟨some "Dune", some [], none⟩⟩])) =
      .ok { title := "Dune", author := "", isbn := "999",
            description := some "No description available",
            is_read := some (some false) } ∧
    ("" : String) ≠ "Unknown" :=
  ⟨rfl, by decide⟩

/-- C4 as amended: on a success response with at least one item, the
record is built from the first item only, with title/description
fallbacks, the input isbn echoed, `is_read = false`, and the author being
the ", "-join of the listed authors — `"Unknown"` only when the `authors`
key is absent (an empty `authors` array yields the empty string). -/
theorem C4_fetch_first_item_mapping (isbn : String) (item : UpstreamItem)
    (rest : List UpstreamItem) :
    fetch_google_book isbn (.ok (some (item :: rest))) =
      .ok { title := item.volumeInfo.title.getD "Unknown",
            author := match item.volumeInfo.authors with
                      | none => "Unknown"
                      | some authors => String.intercalate ", " authors,
            isbn := isbn,
            description :=
              some (item.volumeInfo.description.getD "No description available"),
            is_read := some (some false) } := by
  cases h : item.volumeInfo.authors with
  | none =>
    simp [fetch_google_book, h]
    decide
  | some authors => simp [fetch_google_book, h]

/-- C7: the author and title searches return exactly the stored records
whose field contains the query as a case-insensitive substring, fail with
404 precisely when that set is empty, and a title search for "HOBBIT"
matches the stored title "The Hobbit". -/
theorem C7_search_case_insensitive_substring (q : String) (fs : FileState) :
    (∀ res, get_books_by_author q fs = .ok res →
        res = (load_books fs).filter
          (fun b => decide (ciSubstring q b.author))) ∧
    (get_books_by_author q fs =
        .error (.httpException 404 "No books found for the given author") ↔
      (load_books fs).filter (fun b => decide (ciSubstring q b.author)) = []) ∧
    (∀ res, get_books_by_title q fs = .ok res →
        res = (load_books fs).filter
          (fun b => decide (ciSubstring q b.title))) ∧
    (get_books_by_title q fs =
        .error (.httpException 404 "No books found for the given title") ↔
      (load_books fs).filter (fun b => decide (ciSubstring q b.title)) = []) ∧
    get_books_by_title "HOBBIT" (.content [bkB]) = .ok [bkB] := by
  have hfA : (load_books fs).filter
      (fun b => pyIn (pyLower q) (pyLower b.author)) =
      (load_books fs).filter (fun b => decide (ciSubstring q b.author)) :=
    List.filter_congr (fun b _ => pyIn_eq_decide q b.author)
  have hfT : (load_books fs).filter
      (fun b => pyIn (pyLower q) (pyLower b.title)) =
      (load_books fs).filter (fun b => decide (ciSubstring q b.title)) :=
    List.filter_congr (fun b _ => pyIn_eq_decide q b.title)
  refine ⟨?_, ?_, ?_, ?_, by decide⟩
  · intro res h
    simp only [get_books_by_author] at h
    rw [hfA] at h
    by_cases hL : ((load_books fs).filter
        (fun b => decide (ciSubstring q b.author))).isEmpty = true
    · rw [if_pos hL] at h
      exact absurd h (by simp)
    · rw [if_neg hL] at h
      injection h with h
      exact h.symm
  · simp only [get_books_by_author]
    rw [hfA]
    by_cases hL : ((load_books fs).filter
        (fun b => decide (ciSubstring q b.author))).isEmpty = true
    · rw [if_pos hL]
      simp [List.isEmpty_iff.mp hL]
    · rw [if_neg hL]
      rw [Bool.not_eq_true] at hL
      simp [List.isEmpty_eq_false.mp hL]
  · intro res h
    simp only [get_books_by_title] at h
    rw [hfT] at h
    by_cases hL : ((load_books fs).filter
        (fun b => decide (ciSubstring q b.title))).isEmpty = true
    · rw [if_pos hL] at h
      exact absurd h (by simp)
    · rw [if_neg hL] at h
      injection h with h
      exact h.symm
  · simp only [get_books_by_title]
    rw [hfT]
    by_cases hL : ((load_books fs).filter
        (fun b => decide (ciSubstring q b.title))).isEmpty = true
    · rw [if_pos hL]
      simp [List.isEmpty_iff.mp hL]
    · rw [if_neg hL]
      rw [Bool.not_eq_true] at hL
      simp [List.isEmpty_eq_false.mp hL]

/-- Witness for C7: over a store holding only "The Hobbit", the title
search for "HOBBIT" succeeds and returns precisely the records selected by
the case-insensitive-substring predicate. -/
theorem C7_search_case_insensitive_substring_witness :
    [bkB] = (load_books (.content [bkB])).filter
      (fun b => decide (ciSubstring "HOBBIT" b.title)) :=
  (C7_search_case_insensitive_substring "HOBBIT" (.content [bkB])).2.2.1
    [bkB] (by decide)

/-- C10: the empty query matches every record, so on a non-empty store the
author and title searches with an empty query return the whole collection,
and a 404 from either search forces an empty store or a non-empty
query. -/
theorem C10_empty_query_returns_all (q : String) (fs : FileState) :
    (load_books fs ≠ [] →
        get_books_by_author "" fs = .ok (load_books fs) ∧
        get_books_by_title "" fs = .ok (load_books fs)) ∧
    (∀ e, get_books_by_author q fs = .error e →
        load_books fs = [] ∨ q ≠ "") ∧
    (∀ e, get_books_by_title q fs = .error e →
        load_books fs = [] ∨ q ≠ "") := by
  have htrue : ∀ s : String, pyIn (pyLower "") (pyLower s) = true := by
    intro s
    show substrOf (pyLower "").data (pyLower s).data = true
    exact substrOf_nil _
  have hok : load_books fs ≠ [] →
      get_books_by_author "" fs = .ok (load_books fs) ∧
      get_books_by_title "" fs = .ok (load_books fs) := by
    intro hne
    have hemp : (load_books fs).isEmpty = false :=
      List.isEmpty_eq_false.mpr hne
    constructor
    · simp only [get_books_by_author]
      rw [List.filter_eq_self.mpr (fun a _ => htrue a.author), hemp]
      simp
    · simp only [get_books_by_title]
      rw [List.filter_eq_self.mpr (fun a _ => htrue a.title), hemp]
      simp
  refine ⟨hok, ?_, ?_⟩
  · intro e h
    by_cases hl : load_books fs = []
    · exact Or.inl hl
    · right
      intro hq
      subst hq
      rw [(hok hl).1] at h
      simp at h
  · intro e h
    by_cases hl : load_books fs = []
    · exact Or.inl hl
    · right
      intro hq
      subst hq
      rw [(hok hl).2] at h
      simp at h

/-- Witness for C10: on a one-record store, both empty-query searches
return the whole collection. -/
theorem C10_empty_query_returns_all_witness :
    get_books_by_author "" (.content [bkA]) = .ok (load_books (.content [bkA])) ∧
    get_books_by_title "" (.content [bkA]) = .ok (load_books (.content [bkA])) :=
  (C10_empty_query_returns_all "x" (.content [bkA])).1 (by decide)

/-- C8: when the first stored record carrying the requested isbn has a
boolean `is_read`, the first toggle flips it, the second toggle returns
the original record, and the stored collection after the two calls equals
the original one. -/
theorem C8_toggle_twice_restores (fs : FileState) (isbn : String)
    (bk : BookRec) (b : Bool) (l1 l2 : List BookRec)
    (hload : load_books fs = l1 ++ bk :: l2)
    (hfirst : ∀ r ∈ l1, r.isbn ≠ isbn)
    (hmatch : bk.isbn = isbn)
    (hread : bk.is_read = some (some b)) :
    ∃ bk1,
      (toggle_read_status isbn fs).result = .ok bk1 ∧
      bk1.is_read = some (some (!b)) ∧
      (toggle_read_status isbn (toggle_read_status isbn fs).state).result =
        .ok bk ∧
      load_books (toggle_read_status isbn
        (toggle_read_status isbn fs).state).state = load_books fs := by
  cases bk with
  | mk t a i d ir =>
    simp only at hread
    subst hread
    have h1 := toggleLoop_append isbn l2 ⟨t, a, i, d, some (some b)⟩
      (some b) l1 hfirst hmatch rfl
    simp only [pyNot] at h1
    have h2 := toggleLoop_append isbn l2 ⟨t, a, i, d, some (some (!b))⟩
      (some (!b)) l1 hfirst hmatch rfl
    simp only [pyNot, Bool.not_not] at h2
    have hs1 : (toggle_read_status isbn fs).state =
        .content (l1 ++ ⟨t, a, i, d, some (some (!b))⟩ :: l2) := by
      simp [toggle_read_status, hload, h1, save_books]
    refine ⟨⟨t, a, i, d, some (some (!b))⟩, ?_, rfl, ?_, ?_⟩
    · simp [toggle_read_status, hload, h1]
    · rw [hs1]
      simp [toggle_read_status, load_books, h2]
    · rw [hs1, hload]
      simp [toggle_read_status, load_books, h2, save_books]

/-- Witness for C8: double toggle on a singleton store holding `bkA`
(isbn "123", `is_read = false`) flips to `true` and back, restoring the
stored collection. -/
theorem C8_toggle_twice_restores_witness :
    ∃ bk1,
      (toggle_read_status "123" (.content [bkA])).result = .ok bk1 ∧
      bk1.is_read = some (some (!false)) ∧
      (toggle_read_status "123"
        (toggle_read_status "123" (.content [bkA])).state).result = .ok bkA ∧
      load_books (toggle_read_status "123"
        (toggle_read_status "123" (.content [bkA])).state).state =
        load_books (.content [bkA]) :=
  C8_toggle_twice_restores (.content [bkA]) "123" bkA false [] []
    rfl (by simp) rfl rfl

/-- Counterexample for C1: updating isbn "123" with a replacement record
whose isbn is "456" — the isbn of another stored record — saves a
collection in which two records share isbn "456", violating the
uniqueness invariant the claim asserts is preserved. -/
theorem C1_counterexample_update_creates_duplicate :
    distinctIsbns (load_books (.content [bkA, bkB])) ∧
    ¬ distinctIsbns
      (load_books (update_book "123" payloadB (.content [bkA, bkB])).state) := by
  constructor <;> decide

/-- C1 as amended: manual add, search-and-add, delete and toggle-read
always preserve pairwise-distinct isbns; update preserves them provided
the replacement's isbn equals the path isbn or occurs nowhere in the
loaded collection (an update whose replacement isbn equals another
record's isbn can save a duplicate). -/
theorem C1_mutations_preserve_unique_isbn (fs : FileState)
    (hd : distinctIsbns (load_books fs)) :
    (∀ isbn resp,
        distinctIsbns (load_books (search_and_add_book isbn resp fs).state)) ∧
    (∀ book, distinctIsbns (load_books (add_book book fs).state)) ∧
    (∀ isbn, distinctIsbns (load_books (delete_book isbn fs).state)) ∧
    (∀ isbn, distinctIsbns (load_books (toggle_read_status isbn fs).state)) ∧
    (∀ isbn upd,
        (upd.isbn = isbn ∨ ∀ b ∈ load_books fs, b.isbn ≠ upd.isbn) →
        distinctIsbns (load_books (update_book isbn upd fs).state)) := by
  refine ⟨?_, ?_, ?_, ?_, ?_⟩
  · intro isbn resp
    rcases hf : fetch_google_book isbn resp with e | bk
    · simp [search_and_add_book, hf, hd]
    · by_cases hdup : hasIsbn (load_books fs) isbn = true
      · simp [search_and_add_book, hf, hdup, hd]
      · rw [Bool.not_eq_true] at hdup
        have hbk : bk.isbn = isbn := fetch_ok_isbn isbn resp bk hf
        simp [search_and_add_book, hf, hdup, save_books]
        exact distinct_append_single (load_books fs) bk hd
          (by rw [hbk]; exact hdup)
  · intro book
    by_cases hdup : hasIsbn (load_books fs) book.isbn = true
    · simp [add_book, hdup, hd]
    · rw [Bool.not_eq_true] at hdup
      simp [add_book, hdup, save_books]
      exact distinct_append_single (load_books fs) book.model_dump hd hdup
  · intro isbn
    rcases hdel : deleteLoop isbn (load_books fs) with _ | books'
    · simp [delete_book, hdel, hd]
    · simp [delete_book, hdel, save_books]
      exact List.Nodup.sublist
        (List.Sublist.map BookRec.isbn
          (deleteLoop_sublist isbn (load_books fs) books' hdel)) hd
  · intro isbn
    rcases htog : toggleLoop isbn (load_books fs) with e | p
    · simp [toggle_read_status, htog, hd]
    · obtain ⟨bk, books'⟩ := p
      simp [toggle_read_status, htog, save_books]
      have hmap := toggleLoop_map_isbn isbn (load_books fs) bk books' htog
      show (List.map BookRec.isbn books').Nodup
      rw [hmap]
      exact hd
  · intro isbn upd hside
    rcases hup : updateLoop isbn upd.model_dump (load_books fs) with _ | books'
    · simp [update_book, hup, hd]
    · simp [update_book, hup, save_books]
      exact updateLoop_nodup isbn upd.model_dump (load_books fs) books'
        hup hside hd

/-- Witness for C1: appending a fresh-isbn payload over a one-record store
keeps the isbns pairwise distinct. -/
theorem C1_mutations_preserve_unique_isbn_witness :
    distinctIsbns (load_books (add_book payloadC (.content [bkA])).state) :=
  (C1_mutations_preserve_unique_isbn (.content [bkA]) (by decide)).2.1 payloadC

end Bookshelf
